import Mathlib

/-!
Shallow embedding of `src/enhanced_extractor.py` (class `EnhancedExtractor`).

Modelling conventions:
* Python `str` values are `List Char` (`Str`); Python floats are modelled as
  exact rationals `ℚ` (all constants in the source are decimal literals).
* Each regular expression of the source is implemented as an executable
  scanner over `Str` with Python `re` semantics (leftmost match,
  non-overlapping matches for `findall`/`finditer`, greedy/lazy quantifier
  behaviour reproduced for the concrete patterns that occur in the source).
* Python's `\w` (hence `\b`) is modelled over its ASCII fragment
  `[a-zA-Z0-9_]`; `\s` is modelled as the six ASCII whitespace characters.
  `str.lower` (used by `re.I`) is modelled on ASCII plus the Latin-1
  uppercase range (covering every character of the case-insensitive
  patterns of the source).
-/

abbrev Str := List Char

def str (s : String) : Str := s.toList

/-- Python `\s` (ASCII fragment): space, tab, newline, return, vtab, formfeed. -/
def isSpaceChar (c : Char) : Bool :=
  c = ' ' || c = '\t' || c = '\n' || c = '\r' || c = '\x0b' || c = '\x0c'

/-- Python `\w` (ASCII fragment): letters, digits, underscore. -/
def isWordChar (c : Char) : Bool :=
  c.isAlphanum || c = '_'

/-- `str.lower` on ASCII `A`-`Z` plus Latin-1 uppercase `À`-`Þ` (except `×`),
which covers every cased character appearing in the source's case-insensitive
patterns (including the mojibake bytes `Å`, `Ä`). -/
def lowerChar (c : Char) : Char :=
  if ('A' ≤ c ∧ c ≤ 'Z') ∨ (('À' ≤ c ∧ c ≤ 'Þ') ∧ c ≠ '×') then
    Char.ofNat (c.toNat + 32)
  else c

/-- Python `int` on a nonempty digit string. -/
def natOfDigits (s : Str) : Nat :=
  s.foldl (fun a c => a * 10 + (c.toNat - 48)) 0

/-- Case-sensitive literal: if `p` is a prefix of `s`, return the rest. -/
def dropLit : Str → Str → Option Str
  | [], s => some s
  | _ :: _, [] => none
  | p :: ps, c :: cs => if c = p then dropLit ps cs else none

/-- Case-insensitive literal (`re.I`): the pattern `p` is given lowercased. -/
def dropLitCI : Str → Str → Option Str
  | [], s => some s
  | _ :: _, [] => none
  | p :: ps, c :: cs => if lowerChar c = p then dropLitCI ps cs else none

/-- Whether a case-insensitive literal matches at the head of `s`. -/
def ciStarts (p s : Str) : Bool := (dropLitCI p s).isSome

/-- `re.search` with a boolean matcher tried at every position (leftmost). -/
def existsPos (p : Str → Bool) : Str → Bool
  | [] => false
  | s@(_ :: rest) => p s || existsPos p rest

/-- `re.search` with a capturing matcher tried at every position (leftmost). -/
def searchFirst {α : Type} (here : Str → Option α) : Str → Option α
  | [] => none
  | s@(_ :: rest) =>
    match here s with
    | some a => some a
    | none => searchFirst here rest

/-- `re.findall`/`re.finditer`: all non-overlapping matches, leftmost first.
The matcher returns the capture together with the rest of the string after
the match; the scanner resumes at the end of each match. -/
def scanAllGo {α : Type} (here : Str → Option (α × Str)) : Str → Nat → List α
  | [], _ => []
  | _ :: rest, skip + 1 => scanAllGo here rest skip
  | s@(_ :: rest), 0 =>
    match here s with
    | some (a, rem) => a :: scanAllGo here rest (s.length - rem.length - 1)
    | none => scanAllGo here rest 0

def scanAll {α : Type} (here : Str → Option (α × Str)) (t : Str) : List α :=
  scanAllGo here t 0

/-! ## The parcel-id pattern `\b(\d{1,4}/\d{1,3})\b`

Used by `_detect_template` (count), `_extract_table`, `_extract_skzg`
and `_extract_parcels_simple`. A match at a position is recorded as the
position together with the two captured digit blocks. -/

structure PMatch where
  pos : Nat
  block : Str
  sub : Str
deriving DecidableEq, Repr

def prevIsWord : Option Char → Bool
  | none => false
  | some c => isWordChar c

/-- Match of `\b(\d{1,4}/\d{1,3})\b` at the head of `s`, where `prev` is the
character preceding `s` (`none` at the start of the text). The leading `\d{1,4}`
is greedy and each interior backtrack leaves a digit before the `/`, so a match
requires the whole leading digit run (of length 1-4) to be followed by `/`;
symmetrically the trailing `\b` forces the whole second run (length 1-3). -/
def parcelHere (prev : Option Char) (s : Str) : Option (Str × Str) :=
  if prevIsWord prev then none
  else if 1 ≤ (s.takeWhile Char.isDigit).length ∧ (s.takeWhile Char.isDigit).length ≤ 4 then
    match s.dropWhile Char.isDigit with
    | '/' :: rest =>
      if 1 ≤ (rest.takeWhile Char.isDigit).length
          ∧ (rest.takeWhile Char.isDigit).length ≤ 3 then
        match rest.dropWhile Char.isDigit with
        | [] => some (s.takeWhile Char.isDigit, rest.takeWhile Char.isDigit)
        | c :: _ =>
          if isWordChar c then none
          else some (s.takeWhile Char.isDigit, rest.takeWhile Char.isDigit)
      else none
    | _ => none
  else none

/-- `re.finditer(r'\b(\d{1,4}/\d{1,3})\b', text)`: scan one character at a
time; after a match of length `|b| + 1 + |e|` the remaining `|b| + |e|`
characters of the match are skipped (non-overlapping matches). -/
def parcelScanGo : Str → Option Char → Nat → Nat → List PMatch
  | [], _, _, _ => []
  | c :: rest, _, skip + 1, pos => parcelScanGo rest (some c) skip (pos + 1)
  | c :: rest, prev, 0, pos =>
    match parcelHere prev (c :: rest) with
    | some (b, e) =>
      ⟨pos, b, e⟩ :: parcelScanGo rest (some c) (b.length + e.length) (pos + 1)
    | none => parcelScanGo rest (some c) 0 (pos + 1)

def parcelMatches (t : Str) : List PMatch := parcelScanGo t none 0 0

/-- `match.group(1)` of a parcel-id match. -/
def PMatch.grp (m : PMatch) : Str := m.block ++ '/' :: m.sub

/-! ## `_detect_template` (lines 74-94)

Four ordered signature checks, then the parcel-density rule. -/

/-- `re.search(r'DOKUMENT JE ELEKTRONSKO PODPISAN', text, re.I)`. -/
def elecMark1 (t : Str) : Bool :=
  existsPos (ciStarts (str "dokument je elektronsko podpisan")) t

/-- Head of `\d+-\d+`: a maximal digit run followed by `-` and a digit. -/
def numDashHere (s : Str) : Bool :=
  if (s.takeWhile Char.isDigit).length = 0 then false
  else
    match s.dropWhile Char.isDigit with
    | '-' :: c :: _ => c.isDigit
    | _ => false

/-- Lazy `.*?\d+-\d+` (no DOTALL: the gap may not cross a newline). -/
def lineHasND : Str → Bool
  | [] => false
  | s@(c :: rest) =>
    if numDashHere s then true
    else if c = '\n' then false else lineHasND rest

/-- `re.search(r'Oznaka dokumenta.*?\d+-\d+', text, re.I)`. -/
def elecMark2 (t : Str) : Bool :=
  existsPos (fun s =>
    match dropLitCI (str "oznaka dokumenta") s with
    | some r => lineHasND r
    | none => false) t

/-- `re.search(r'Sklad kmetijskih zemljiÅ¡Ä', text, re.I)`. -/
def skzgMark1 (t : Str) : Bool :=
  existsPos (ciStarts (str "sklad kmetijskih zemljiå¡ä")) t

/-- `re.search(r'PONUDBO Å¡t', text, re.I)`. -/
def skzgMark2 (t : Str) : Bool :=
  existsPos (ciStarts (str "ponudbo å¡t")) t

/-- `EnhancedExtractor._detect_template`. -/
def detect_template (text : Str) : Str :=
  if elecMark1 text then str "electronic_form"
  else if elecMark2 text then str "electronic_form"
  else if skzgMark1 text then str "skzg"
  else if skzgMark2 text then str "skzg"
  else if 5 ≤ (parcelMatches text).length then str "table_format"
  else str "generic"

/-! ## `_check_buyer_known` (lines 319-333) -/

/-- Head of `KUPEC\s+(?:JE\s+)?ZNAN` (`re.I`): after `KUPEC` and mandatory
whitespace, the greedy optional group `JE\s+` is tried first, then the
alternative without it. -/
def buyerStrongHere (s : Str) : Bool :=
  match dropLitCI (str "kupec") s with
  | none => false
  | some r1 =>
    if (r1.takeWhile isSpaceChar).length = 0 then false
    else
      let r2 := r1.dropWhile isSpaceChar
      (match dropLitCI (str "je") r2 with
       | some r3 =>
         if (r3.takeWhile isSpaceChar).length ≠ 0
            ∧ ciStarts (str "znan") (r3.dropWhile isSpaceChar) then true
         else ciStarts (str "znan") r2
       | none => ciStarts (str "znan") r2)

/-- Lazy `.*?znan` within a line (Python `.` does not match a newline). -/
def lineHasZnan : Str → Bool
  | [] => false
  | s@(c :: rest) =>
    if ciStarts (str "znan") s then true
    else if c = '\n' then false else lineHasZnan rest

/-- Head of `kupec.*?znan` (`re.I`). -/
def buyerLooseHere (s : Str) : Bool :=
  match dropLitCI (str "kupec") s with
  | none => false
  | some r => lineHasZnan r

/-- Head of `KUPEC\s+NI\s+ZNAN` (`re.I`). -/
def buyerNegHere (s : Str) : Bool :=
  match dropLitCI (str "kupec") s with
  | none => false
  | some r1 =>
    if (r1.takeWhile isSpaceChar).length = 0 then false
    else
      match dropLitCI (str "ni") (r1.dropWhile isSpaceChar) with
      | none => false
      | some r2 =>
        if (r2.takeWhile isSpaceChar).length = 0 then false
        else ciStarts (str "znan") (r2.dropWhile isSpaceChar)

def buyerStrong (t : Str) : Bool := existsPos buyerStrongHere t
def buyerLoose (t : Str) : Bool := existsPos buyerLooseHere t
def buyerNeg (t : Str) : Bool := existsPos buyerNegHere t

/-- `EnhancedExtractor._check_buyer_known`. -/
def check_buyer_known (text : Str) : Bool × ℚ :=
  if buyerStrong text then (true, 0.95)
  else if buyerLoose text then (true, 0.8)
  else if buyerNeg text then (false, 0.9)
  else (false, 0.5)

/-! ## `_extract_total_price` (lines 289-317) -/

/-- Python `float` on a string of digits and at most one dot
(the only shapes produced by the price patterns after separator rewriting);
more than one dot raises `ValueError`, modelled as `none`. -/
def pyFloatQ (s : Str) : Option ℚ :=
  if s.all (fun c => c.isDigit || c = '.') ∧ s.any Char.isDigit
     ∧ s.count '.' ≤ 1 then
    some ((natOfDigits (s.takeWhile (fun c => c ≠ '.')) : ℚ)
      + (natOfDigits ((s.dropWhile (fun c => c ≠ '.')).drop 1) : ℚ)
        / (10 ^ ((s.dropWhile (fun c => c ≠ '.')).drop 1).length : ℚ))
  else none

/-- `price_str.replace('.', '').replace(',', '.')` then `float(price_str)`. -/
def parseEuro (cap : Str) : Option ℚ :=
  pyFloatQ ((cap.filter (fun c => c ≠ '.')).map (fun c => if c = ',' then '.' else c))

/-- The greedy `(?:[.,]\d{3})*` part of price pattern 1: repeatedly consume a
separator followed by exactly three digits; returns the consumed prefix and
the rest. -/
def starThousands : Str → Str × Str
  | c :: d1 :: d2 :: d3 :: rest =>
    if (c = '.' ∨ c = ',') ∧ d1.isDigit ∧ d2.isDigit ∧ d3.isDigit then
      let p := starThousands rest
      (c :: d1 :: d2 :: d3 :: p.1, p.2)
    else ([], c :: d1 :: d2 :: d3 :: rest)
  | s => ([], s)

/-- The greedy optional `(?:[.,]\d{2})?` part of price pattern 1. -/
def optCents : Str → Str
  | c :: d1 :: d2 :: _ =>
    if (c = '.' ∨ c = ',') ∧ d1.isDigit ∧ d2.isDigit then [c, d1, d2] else []
  | _ => []

/-- Head of `Cena skupaj:[\s\n]*(\d{1,6}(?:[.,]\d{3})*(?:[.,]\d{2})?)` (`re.I`):
returns the captured group. When the leading digit run exceeds six digits the
greedy `\d{1,6}` keeps six and both tails match empty (the next character is a
digit, not a separator). -/
def cenaSkupajHere (s : Str) : Option Str :=
  match dropLitCI (str "cena skupaj:") s with
  | none => none
  | some r =>
    let r1 := r.dropWhile isSpaceChar
    let d := r1.takeWhile Char.isDigit
    if d.length = 0 then none
    else if 6 < d.length then some (d.take 6)
    else
      let p := starThousands (r1.drop d.length)
      some (d ++ p.1 ++ optCents p.2)

/-- Head of `(\d{1,6}[.,]\d{3}[.,]\d{2})\s*EUR` (case-sensitive): all counted
groups are rigid, so a match needs a 1-6 digit run, a separator, exactly three
digits, a separator, exactly two digits, optional whitespace, then `EUR`. -/
def bareAmountHere (s : Str) : Option Str :=
  let d := s.takeWhile Char.isDigit
  if 1 ≤ d.length ∧ d.length ≤ 6 then
    match s.dropWhile Char.isDigit with
    | c1 :: a :: b :: c :: c2 :: x :: y :: rest =>
      if (c1 = '.' ∨ c1 = ',') ∧ a.isDigit ∧ b.isDigit ∧ c.isDigit
         ∧ (c2 = '.' ∨ c2 = ',') ∧ x.isDigit ∧ y.isDigit
         ∧ (dropLit (str "EUR") (rest.dropWhile isSpaceChar)).isSome then
        some (d ++ c1 :: a :: b :: c :: c2 :: x :: [y])
      else none
    | _ => none
  else none

def searchPat1 (t : Str) : Option Str := searchFirst cenaSkupajHere t
def searchPat2 (t : Str) : Option Str := searchFirst bareAmountHere t

/-- Second half of `_extract_total_price`: the bare-amount pattern with the
`price >= 100` reasonableness floor. -/
def pat2Price (text : Str) : Option ℚ :=
  match searchPat2 text with
  | some cap =>
    match parseEuro cap with
    | some v => if 100 ≤ v then some v else none
    | none => none
  | none => none

/-- `EnhancedExtractor._extract_total_price`: pattern 1, falling through to
pattern 2 when pattern 1 does not match or its parse fails. -/
def extract_total_price (text : Str) : Option ℚ :=
  match searchPat1 text with
  | some cap =>
    match parseEuro cap with
    | some v => some v
    | none => pat2Price text
  | none => pat2Price text

/-! ## Data model (dataclasses `PlotExtraction`, `DocumentExtraction`) -/

structure PlotExtraction where
  parcel_id : Str
  area_m2 : Option Nat := none
  price_eur : Option ℚ := none
  share : Str := str "1/1"
  confidence : ℚ := 0.0
deriving DecidableEq, Repr

structure DocumentExtraction where
  pdf_id : Str
  plots : List PlotExtraction := []
  total_price : Option ℚ := none
  total_area_m2 : Option Nat := none
  buyer_known : Bool := false
  buyer_known_confidence : ℚ := 0.0
  template_type : Str := str "unknown"
  confidence_score : ℚ := 0.0
  extraction_notes : List Str := []
deriving DecidableEq, Repr

/-- Python truthiness of an optional int (`if p.area_m2:`): `None` and `0`
are both falsy. -/
def truthyN : Option Nat → Bool
  | none => false
  | some n => n ≠ 0

/-- Python truthiness of an optional float (`if result.total_price:`). -/
def truthyQ : Option ℚ → Bool
  | none => false
  | some q => q ≠ 0

/-! ## `_extract_electronic` (lines 96-168) -/

/-- Head of `Parcelna Å¡tevilka:[\s\n]*(\d+/\d+)` (case-sensitive); returns
the captured group and the rest after the match. -/
def elecParcelHere (s : Str) : Option (Str × Str) :=
  match dropLit (str "Parcelna Å¡tevilka:") s with
  | none => none
  | some r =>
    let r1 := r.dropWhile isSpaceChar
    let d1 := r1.takeWhile Char.isDigit
    if d1.length = 0 then none
    else
      match r1.dropWhile Char.isDigit with
      | '/' :: r2 =>
        let d2 := r2.takeWhile Char.isDigit
        if d2.length = 0 then none
        else some (d1 ++ '/' :: d2, r2.dropWhile Char.isDigit)
      | _ => none

/-- Head of `Cena[/\s]*EUR:[\s\n]*(\d+(?:\.\d{2})?)` (case-sensitive). -/
def elecPriceHere (s : Str) : Option (Str × Str) :=
  match dropLit (str "Cena") s with
  | none => none
  | some r =>
    match dropLit (str "EUR:") (r.dropWhile (fun c => c = '/' || isSpaceChar c)) with
    | none => none
    | some r1 =>
      let r2 := r1.dropWhile isSpaceChar
      let d := r2.takeWhile Char.isDigit
      if d.length = 0 then none
      else
        match r2.dropWhile Char.isDigit with
        | '.' :: x :: y :: r3 =>
          if x.isDigit ∧ y.isDigit then some (d ++ '.' :: x :: [y], r3)
          else some (d, r2.dropWhile Char.isDigit)
        | r3 => some (d, r3)

/-- Head of `PovrÅ¡ina \(m[2Â²?]\):[\s\n]*(\d+)` (case-sensitive). -/
def elecAreaHere (s : Str) : Option (Str × Str) :=
  match dropLit (str "PovrÅ¡ina (m") s with
  | none => none
  | some r =>
    match r with
    | c :: r1 =>
      if c = '2' ∨ c = 'Â' ∨ c = '²' ∨ c = '?' then
        match dropLit (str "):") r1 with
        | none => none
        | some r2 =>
          let r3 := r2.dropWhile isSpaceChar
          let d := r3.takeWhile Char.isDigit
          if d.length = 0 then none
          else some (d, r3.dropWhile Char.isDigit)
      else none
    | [] => none

/-- Tail `[\s\n]*(\d+/\d+)` of the share pattern tried at one position. -/
def shareNumAt (s : Str) : Option (Str × Str) :=
  let r1 := s.dropWhile isSpaceChar
  let d1 := r1.takeWhile Char.isDigit
  if d1.length = 0 then none
  else
    match r1.dropWhile Char.isDigit with
    | '/' :: r2 =>
      let d2 := r2.takeWhile Char.isDigit
      if d2.length = 0 then none
      else some (d1 ++ '/' :: d2, r2.dropWhile Char.isDigit)
    | _ => none

/-- Lazy `.*?[\s\n]*(\d+/\d+)`: try each offset (the gap may not cross a
newline, though the `[\s\n]*` part may). -/
def findShareNum : Str → Option (Str × Str)
  | [] => none
  | s@(c :: rest) =>
    match shareNumAt s with
    | some res => some res
    | none => if c = '\n' then none else findShareNum rest

/-- Lazy `.*?prodajate` followed by the share-number tail, with backtracking
over later `prodajate` occurrences when the tail fails. -/
def sharesTail : Str → Option (Str × Str)
  | [] => none
  | s@(c :: rest) =>
    match dropLitCI (str "prodajate") s with
    | some r2 =>
      (match findShareNum r2 with
       | some res => some res
       | none => if c = '\n' then none else sharesTail rest)
    | none => if c = '\n' then none else sharesTail rest

/-- Head of `kakÅ¡en deleÅ¾.*?prodajate.*?[\s\n]*(\d+/\d+)` (`re.I`). -/
def sharesHere (s : Str) : Option (Str × Str) :=
  match dropLitCI (str "kakå¡en deleå¾") s with
  | none => none
  | some r1 => sharesTail r1

/-- The four independently scanned lists of the electronic-form strategy. -/
def elecParcelIds (t : Str) : List Str := scanAll elecParcelHere t

/-- Price captures parsed by `float` inside `try`; a failed parse appends
`None` (with these captures `float` in fact always succeeds). -/
def elecPrices (t : Str) : List (Option ℚ) := (scanAll elecPriceHere t).map pyFloatQ

/-- Area captures parsed by `int` inside `try`; `int` on a `\d+` capture
cannot fail, so every entry is `some`. -/
def elecAreas (t : Str) : List (Option Nat) :=
  (scanAll elecAreaHere t).map (fun d => some (natOfDigits d))

def elecShares (t : Str) : List Str := scanAll sharesHere t

/-- `EnhancedExtractor._extract_electronic`. -/
def extract_electronic (text pdf_id : Str) : DocumentExtraction :=
  let parcel_ids := elecParcelIds text
  let prices := elecPrices text
  let areas := elecAreas text
  let shares := elecShares text
  let plots : List PlotExtraction := (List.range parcel_ids.length).map (fun i =>
    { parcel_id := parcel_ids.getD i []
      area_m2 := areas.getD i none
      price_eur := prices.getD i none
      share := shares.getD i (str "1/1")
      confidence := 0.9 })
  let total_price := extract_total_price text
  let total_area := ((plots.filterMap (fun p => p.area_m2)).filter (fun a => a ≠ 0)).sum
  let total_area_m2 : Option Nat :=
    if plots ≠ [] then (if 0 < total_area then some total_area else none) else none
  let bk := check_buyer_known text
  { pdf_id := pdf_id
    plots := plots
    total_price := total_price
    total_area_m2 := total_area_m2
    buyer_known := bk.1
    buyer_known_confidence := bk.2 }

/-! ## `_extract_table` (lines 170-215) -/

/-- Area validation of the table strategy (line 196):
`not (1900 <= a <= 2100) and 1 <= a <= 999999`. -/
def validArea_table (n : Nat) : Prop :=
  ¬(1900 ≤ n ∧ n ≤ 2100) ∧ (1 ≤ n ∧ n ≤ 999999)

instance (n : Nat) : Decidable (validArea_table n) := by
  unfold validArea_table; infer_instance

/-- Area validation of the SKZG strategy (line 242):
`1 <= a <= 999999 and not (1900 <= a <= 2100)`. -/
def validArea_skzg (n : Nat) : Prop :=
  (1 ≤ n ∧ n ≤ 999999) ∧ ¬(1900 ≤ n ∧ n ≤ 2100)

instance (n : Nat) : Decidable (validArea_skzg n) := by
  unfold validArea_skzg; infer_instance

/-- First match of `\b(\d{1,6})\b` tried at the head of `s`: a maximal digit
run of length 1-6 delimited by word boundaries on both sides. -/
def num16Here (prev : Option Char) (s : Str) : Option Nat :=
  if prevIsWord prev then none
  else
    let r := s.takeWhile Char.isDigit
    if 1 ≤ r.length ∧ r.length ≤ 6 then
      match s.dropWhile Char.isDigit with
      | [] => some (natOfDigits r)
      | c :: _ => if isWordChar c then none else some (natOfDigits r)
    else none

/-- `re.search(r'\b(\d{1,6})\b', s)` on a sliced string (no preceding
character at position 0). -/
def searchNum16 : Option Char → Str → Option Nat
  | _, [] => none
  | prev, s@(c :: rest) =>
    match num16Here prev s with
    | some v => some v
    | none => searchNum16 (some c) rest

/-- One table-strategy plot: the context window is the 100 characters after
the match, and the area is searched in `context[len(parcel_id):]`. -/
def tablePlot (text : Str) (m : PMatch) : PlotExtraction :=
  let pid := m.grp
  let strt := m.pos
  let stop := min (m.pos + pid.length + 100) text.length
  let context := (text.drop strt).take (stop - strt)
  let area : Option Nat :=
    match searchNum16 none (context.drop pid.length) with
    | some v => if validArea_table v then some v else none
    | none => none
  { parcel_id := pid, area_m2 := area, confidence := 0.6 }

/-! ## `_extract_parcels_simple` (lines 270-287) -/

/-- The dedup-and-limit loop: keep a parcel id when unseen and fewer than 30
ids have been kept (Python set membership modelled by list membership). -/
def simpleGo : List Str → List Str → List PlotExtraction
  | [], _ => []
  | pid :: rest, seen =>
    if pid ∉ seen ∧ seen.length < 30 then
      { parcel_id := pid, confidence := 0.4 } :: simpleGo rest (pid :: seen)
    else simpleGo rest seen

/-- `EnhancedExtractor._extract_parcels_simple`: appends the fallback plots
to the plots already present in `result`. -/
def extract_parcels_simple (text : Str) (result : DocumentExtraction) :
    DocumentExtraction :=
  { result with
    plots := result.plots ++ simpleGo ((parcelMatches text).map PMatch.grp) [] }

/-- `EnhancedExtractor._extract_table`. -/
def extract_table (text pdf_id : Str) : DocumentExtraction :=
  let result0 : DocumentExtraction :=
    { pdf_id := pdf_id, plots := (parcelMatches text).map (tablePlot text) }
  let result1 :=
    if result0.plots = [] ∨ 50 < result0.plots.length then
      extract_parcels_simple text result0
    else result0
  let bk := check_buyer_known text
  { result1 with
    total_price := extract_total_price text
    buyer_known := bk.1
    buyer_known_confidence := bk.2 }

/-! ## `_extract_skzg` (lines 217-257) -/

/-- Match of `\b(\d{2,6})\s*(?:m[2Â²]?)?` tried at the head of `s`: everything
after the digit group is optional, so a match only needs a word boundary and a
digit run of length at least two; the greedy group keeps at most six digits. -/
def skzgNumHere (prev : Option Char) (s : Str) : Option Nat :=
  if prevIsWord prev then none
  else if 2 ≤ (s.takeWhile Char.isDigit).length then
    some (natOfDigits ((s.takeWhile Char.isDigit).take 6))
  else none

/-- `re.search(r'\b(\d{2,6})\s*(?:m[2Â²]?)?', s)` on a sliced string. -/
def searchSkzgNum : Option Char → Str → Option Nat
  | _, [] => none
  | prev, s@(c :: rest) =>
    match skzgNumHere prev s with
    | some v => some v
    | none => searchSkzgNum (some c) rest

/-- One SKZG-strategy plot: the context window spans 50 characters before the
match to 100 after, but the area search runs on
`context[match.start() - context_start:]`, i.e. from the match itself. -/
def skzgPlot (text : Str) (m : PMatch) : PlotExtraction :=
  let contextStart := m.pos - 50
  let contextEnd := min text.length (m.pos + m.grp.length + 100)
  let context := (text.drop contextStart).take (contextEnd - contextStart)
  let searched := context.drop (m.pos - contextStart)
  let area : Option Nat :=
    match searchSkzgNum none searched with
    | some v => if validArea_skzg v then some v else none
    | none => none
  { parcel_id := m.grp, area_m2 := area, confidence := 0.7 }

/-- `EnhancedExtractor._extract_skzg`. -/
def extract_skzg (text pdf_id : Str) : DocumentExtraction :=
  let bk := check_buyer_known text
  { pdf_id := pdf_id
    plots := (parcelMatches text).map (skzgPlot text)
    total_price := extract_total_price text
    buyer_known := bk.1
    buyer_known_confidence := bk.2 }

/-! ## `_extract_generic` (lines 259-268) -/

def extract_generic (text pdf_id : Str) : DocumentExtraction :=
  let result := extract_parcels_simple text { pdf_id := pdf_id }
  let bk := check_buyer_known text
  { result with
    total_price := extract_total_price text
    buyer_known := bk.1
    buyer_known_confidence := bk.2 }

/-! ## `_calculate_confidence` (lines 336-356) -/

/-- `EnhancedExtractor._calculate_confidence`. Note the Python truthiness
tests: `any(p.area_m2 for ...)` and `if result.total_price:` treat a present
zero the same as an absent value. -/
def calculate_confidence (result : DocumentExtraction) : ℚ :=
  if result.plots = [] then 0.1
  else
    let avg_plot_conf :=
      (result.plots.map (fun p => p.confidence)).sum / (result.plots.length : ℚ)
    let completeness : ℚ :=
      (if result.plots.any (fun p => truthyN p.area_m2) then (0.4 : ℚ) else 0)
      + (if truthyQ result.total_price then (0.3 : ℚ) else 0)
      + (if result.buyer_known then (0.2 : ℚ) else 0)
      + (if 2 ≤ result.plots.length then (0.1 : ℚ) else 0)
    min ((avg_plot_conf + completeness) / 2) 1

/-! ## `extract_from_ocr_text` (lines 51-72): the orchestrator -/

def extract_from_ocr_text (text pdf_id : Str) : DocumentExtraction :=
  let template := detect_template text
  let result :=
    if template = str "electronic_form" then extract_electronic text pdf_id
    else if template = str "table_format" then extract_table text pdf_id
    else if template = str "skzg" then extract_skzg text pdf_id
    else extract_generic text pdf_id
  let result1 := { result with template_type := template }
  { result1 with confidence_score := calculate_confidence result1 }

/-! ## Concrete inputs used by the claims -/

/-- Scenario C input: six parcel-id occurrences, no template signatures. -/
def c3text : Str := str "1/1 2/1 3/1 4/1 5/1 6/1"

/-- A table-format text whose windowed extraction finds 51 plots. -/
def t4text : Str := str "1/1 2/1 3/1 4/1 5/1 6/1 7/1 8/1 9/1 10/1 11/1 12/1 13/1 14/1 15/1 16/1 17/1 18/1 19/1 20/1 21/1 22/1 23/1 24/1 25/1 26/1 27/1 28/1 29/1 30/1 31/1 32/1 33/1 34/1 35/1 36/1 37/1 38/1 39/1 40/1 41/1 42/1 43/1 44/1 45/1 46/1 47/1 48/1 49/1 50/1 51/1"

/-- Scenario D input: three parcel-id labels, three price labels, two area
labels, no share labels. -/
def t6text : Str := str "Parcelna Å¡tevilka: 123/4\nCena/EUR: 1500.00\nParcelna Å¡tevilka: 125/4\nCena/EUR: 2000.00\nParcelna Å¡tevilka: 126/4\nCena/EUR: 300.00\nPovrÅ¡ina (m2): 5000\nPovrÅ¡ina (m2): 4000\n"

def t6pdf : Str := str "doc6"

/-- A finalized result with one plot whose area is present but zero: the
claimed scoring formula and the code differ here. -/
def c2doc : DocumentExtraction :=
  { pdf_id := str "c2"
    plots := [{ parcel_id := str "1/1", area_m2 := some 0, confidence := 0.9 }] }

/-! ## Small facts about truthiness -/

theorem truthyN_iff (o : Option Nat) : truthyN o = true ↔ o ≠ none ∧ o ≠ some 0 := by
  cases o with
  | none => simp [truthyN]
  | some n => simp [truthyN]

theorem truthyQ_iff (o : Option ℚ) : truthyQ o = true ↔ o ≠ none ∧ o ≠ some 0 := by
  cases o with
  | none => simp [truthyQ]
  | some q => simp [truthyQ]

/-! ## Claim C2 -/

/-- C2 counterexample: the claim computes completeness `0.4` for a plot whose
area is present (`some 0`), predicting score `min ((0.9 + 0.4) / 2) 1 = 0.65`,
but `_calculate_confidence` tests Python truthiness, treats the zero area as
missing, and returns `0.45`. -/
theorem C2_counterexample :
    calculate_confidence c2doc = 0.45
    ∧ c2doc.plots ≠ []
    ∧ (c2doc.plots.map (fun p => p.confidence)).sum / (c2doc.plots.length : ℚ) = 0.9
    ∧ (∃ p ∈ c2doc.plots, p.area_m2 ≠ none)
    ∧ (0.45 : ℚ) ≠ min (((0.9 : ℚ) + 0.4) / 2) 1 := by
  refine ⟨?_, by simp [c2doc], ?_, ?_, ?_⟩
  · simp only [calculate_confidence, c2doc]
    norm_num [truthyN, truthyQ, min_def]
  · simp [c2doc]
  · exact ⟨{ parcel_id := str "1/1", area_m2 := some 0, confidence := 0.9 },
      by simp [c2doc], by simp⟩
  · rw [min_def]
    norm_num

/-- C2 (amended): with zero plots the scorer returns exactly `0.1`; otherwise
it returns `min ((avg + completeness) / 2) 1` where `completeness` adds `0.4`
when some plot has a present *and nonzero* area, `0.3` when `total_price` is
present *and nonzero* (Python truthiness), `0.2` when `buyer_known`, and `0.1`
when there are at least two plots. -/
theorem C2_amended (r : DocumentExtraction) :
    calculate_confidence r =
      if r.plots = [] then 0.1
      else
        min (((r.plots.map (fun p => p.confidence)).sum / (r.plots.length : ℚ)
          + ((if ∃ p ∈ r.plots, p.area_m2 ≠ none ∧ p.area_m2 ≠ some 0 then (0.4 : ℚ) else 0)
            + (if r.total_price ≠ none ∧ r.total_price ≠ some 0 then (0.3 : ℚ) else 0)
            + (if r.buyer_known = true then (0.2 : ℚ) else 0)
            + (if 2 ≤ r.plots.length then (0.1 : ℚ) else 0))) / 2) 1 := by
  unfold calculate_confidence
  rcases eq_or_ne r.plots [] with he | he
  · simp [he]
  · simp only [if_neg he]
    have h1 : ((r.plots.any fun p => truthyN p.area_m2) = true)
        ↔ ∃ p ∈ r.plots, p.area_m2 ≠ none ∧ p.area_m2 ≠ some 0 := by
      simp only [List.any_eq_true, truthyN_iff]
    have h2 : (truthyQ r.total_price = true)
        ↔ r.total_price ≠ none ∧ r.total_price ≠ some 0 := truthyQ_iff _
    rw [if_congr h1 rfl rfl, if_congr h2 rfl rfl]

/-! ## Claim C8 -/

/-- C8: in both the table and SKZG strategies the area validation accepts an
integer exactly when it lies in `[1, 999999]` and outside the calendar band
`[1900, 2100]`; equivalently it rejects exactly the band and everything
outside the range. -/
theorem C8_area_validation (n : Nat) :
    (validArea_table n ↔ validArea_skzg n)
    ∧ (¬ validArea_table n ↔ ((1900 ≤ n ∧ n ≤ 2100) ∨ n < 1 ∨ 999999 < n)) := by
  unfold validArea_table validArea_skzg
  omega

/-! ## Claim C3 -/

/-- C3: `_detect_template` is an ordered first-match decision list; on text
with no electronic-form marker and no SKZG signature it returns
`table_format` exactly when the parcel-id pattern occurs at least five times
and `generic` otherwise, and every text is classified with one of the four
labels. -/
theorem C3_classifier (t : Str) :
    (elecMark1 t = false → elecMark2 t = false → skzgMark1 t = false →
      skzgMark2 t = false →
      detect_template t =
        if 5 ≤ (parcelMatches t).length then str "table_format" else str "generic")
    ∧ (detect_template t = str "electronic_form" ∨ detect_template t = str "skzg"
       ∨ detect_template t = str "table_format" ∨ detect_template t = str "generic") := by
  constructor
  · intro h1 h2 h3 h4
    simp [detect_template, h1, h2, h3, h4]
  · unfold detect_template
    split_ifs <;> simp

/-- C3 witness: a text with six parcel-id occurrences and no other template
signatures classifies as `table_format`. -/
theorem C3_classifier_witness :
    elecMark1 c3text = false ∧ elecMark2 c3text = false
    ∧ skzgMark1 c3text = false ∧ skzgMark2 c3text = false
    ∧ (parcelMatches c3text).length = 6
    ∧ detect_template c3text = str "table_format" := by
  refine ⟨by decide, by decide, by decide, by decide, by decide, ?_⟩
  have h := (C3_classifier c3text).1 (by decide) (by decide) (by decide) (by decide)
  rw [h]
  decide

/-! ## Claim C5 -/

/-- C5 counterexample: on the text `"KUPEC NI ZNAN"` itself — which contains
the negative phrase and no other buyer mention — `_check_buyer_known` returns
`(true, 0.8)` (the loose `kupec.*?znan` rule fires first), not the claimed
`(false, 0.9)`. -/
theorem C5_counterexample :
    check_buyer_known (str "KUPEC NI ZNAN") = (true, 0.8)
    ∧ check_buyer_known (str "KUPEC NI ZNAN") ≠ (false, 0.9) := by
  have h0 : check_buyer_known (str "KUPEC NI ZNAN") = (true, 0.8) := rfl
  refine ⟨h0, ?_⟩
  rw [h0]
  simp

theorem dropLitCI_of_lower (s : Str) : ∀ (p v : Str), s.map lowerChar = p →
    dropLitCI p (s ++ v) = some v := by
  induction s with
  | nil =>
    intro p v h
    subst h
    rfl
  | cons c cs ih =>
    intro p v h
    subst h
    simp only [List.map_cons, List.cons_append, dropLitCI, if_pos rfl]
    exact ih _ v rfl

theorem buyerLoose_of_infix (t : Str) (h : (str "KUPEC NI ZNAN") <:+: t) :
    buyerLoose t = true := by
  obtain ⟨u, v, huv⟩ := h
  rw [← huv, List.append_assoc]
  clear huv
  induction u with
  | nil => rfl
  | cons c cs ih =>
    simp only [buyerLoose] at ih
    simp only [List.cons_append, buyerLoose, existsPos, List.append_eq, ih, Bool.or_true]

/-- C5 (amended): because the loose `kupec.*?znan` rule precedes the negative
rule, any text containing the single-line phrase `"KUPEC NI ZNAN"` on which
the strong positive pattern does not match yields `(true, 0.8)` — the claimed
`(false, 0.9)` is unreachable for such texts. -/
theorem C5_amended (t : Str) (h : (str "KUPEC NI ZNAN") <:+: t)
    (hs : buyerStrong t = false) :
    check_buyer_known t = (true, 0.8) := by
  unfold check_buyer_known
  rw [hs, buyerLoose_of_infix t h]
  simp

/-- C5 witness for the amended claim, at the phrase itself. -/
theorem C5_amended_witness :
    ((str "KUPEC NI ZNAN") <:+: (str "KUPEC NI ZNAN"))
    ∧ buyerStrong (str "KUPEC NI ZNAN") = false
    ∧ check_buyer_known (str "KUPEC NI ZNAN") = (true, 0.8) :=
  ⟨List.infix_refl _, by decide, C5_amended _ (List.infix_refl _) (by decide)⟩

/-! ## Claim C4 -/

/-- C4: the claim fails on the source. On a text with 51 parcel-id matches
the windowed table extraction finds more than 50 plots, and the fallback call
`self._extract_parcels_simple(text, pdf_id, result)` receives the already
populated `result` and appends to `result.plots`, so `_extract_table` returns
the 51 windowed plots followed by the 30 capped simple plots (81 in total) —
not "exactly those produced by the Generic strategy's simple extraction"
(30 plots here). -/
theorem C4_table_fallback_eval :
    50 < ((parcelMatches t4text).map (tablePlot t4text)).length
    ∧ (extract_table t4text (str "doc")).plots.length = 81
    ∧ (extract_parcels_simple t4text { pdf_id := str "doc" }).plots.length = 30
    ∧ (extract_table t4text (str "doc")).plots
        ≠ (extract_parcels_simple t4text { pdf_id := str "doc" }).plots := by
  refine ⟨by decide, by decide, by decide, ?_⟩
  intro h
  have h1 : (extract_table t4text (str "doc")).plots.length = 81 := by decide
  have h2 : (extract_parcels_simple t4text { pdf_id := str "doc" }).plots.length = 30 := by
    decide
  rw [h, h2] at h1
  exact absurd h1 (by norm_num)

/-! ## Claim C7 -/

theorem pat2Price_eq (t : Str) :
    pat2Price t = Option.filter (fun v => decide (100 ≤ v)) ((searchPat2 t).bind parseEuro) := by
  unfold pat2Price
  cases h2 : searchPat2 t with
  | none => rfl
  | some cap =>
    show (match parseEuro cap with
          | some v => if 100 ≤ v then some v else none
          | none => none)
        = Option.filter (fun v => decide (100 ≤ v)) ((some cap).bind parseEuro)
    rw [Option.some_bind]
    cases parseEuro cap with
    | none => rfl
    | some v => simp [Option.filter]

theorem etp_of_pat1 {t cap : Str} {v : ℚ} (h1 : searchPat1 t = some cap)
    (h2 : parseEuro cap = some v) : extract_total_price t = some v := by
  unfold extract_total_price
  simp only [h1, h2]

/-- C7: `_extract_total_price` tries the labeled `Cena skupaj:` pattern first
(parsed by deleting `.` and mapping `,` to a decimal point — on Scenario A it
returns exactly `21000`), otherwise the bare `<1-6 digits><sep><3 digits>
<sep><2 digits>` amount before a currency marker filtered by the `≥ 100`
floor, and returns absent when neither attempt produces a value. -/
theorem C7_total_price :
    extract_total_price (str "Cena skupaj: 21.000,00 EUR") = some 21000
    ∧ (∀ t : Str,
        extract_total_price t =
          Option.orElse ((searchPat1 t).bind parseEuro)
            (fun _ => Option.filter (fun v => decide (100 ≤ v))
              ((searchPat2 t).bind parseEuro))) := by
  constructor
  · have h1 : searchPat1 (str "Cena skupaj: 21.000,00 EUR") = some (str "21.000,00") := by
      decide
    have htr : ((str "21.000,00").filter (fun c => c ≠ '.')).map
        (fun c => if c = ',' then '.' else c) = str "21000.00" := by decide
    have h2 : parseEuro (str "21.000,00") = some 21000 := by
      unfold parseEuro
      rw [htr]
      unfold pyFloatQ
      rw [if_pos (by decide)]
      rw [show (str "21000.00").takeWhile (fun c => c ≠ '.') = str "21000" from by decide]
      rw [show ((str "21000.00").dropWhile (fun c => c ≠ '.')).drop 1 = str "00" from by decide]
      rw [show natOfDigits (str "21000") = 21000 from by decide]
      rw [show natOfDigits (str "00") = 0 from by decide]
      norm_num
    exact etp_of_pat1 h1 h2
  · intro t
    unfold extract_total_price
    rw [← pat2Price_eq t]
    cases h1 : searchPat1 t with
    | none => rfl
    | some cap =>
      show (match parseEuro cap with
            | some v => some v
            | none => pat2Price t)
          = Option.orElse ((some cap).bind parseEuro) fun _ => pat2Price t
      rw [Option.some_bind]
      cases parseEuro cap with
      | none => rfl
      | some v => rfl

/-! ## Claim C6 -/

theorem extract_electronic_plots (text pdf_id : Str) :
    (extract_electronic text pdf_id).plots =
      (List.range (elecParcelIds text).length).map (fun i =>
        { parcel_id := (elecParcelIds text).getD i []
          area_m2 := (elecAreas text).getD i none
          price_eur := (elecPrices text).getD i none
          share := (elecShares text).getD i (str "1/1")
          confidence := 0.9 }) := rfl

set_option maxRecDepth 100000 in
/-- C6: the electronic-form strategy aligns the four scanned lists by index —
the i-th plot pairs the i-th parcel id with the i-th price, area and share,
missing trailing entries are absent and shares default to `"1/1"`; on the
Scenario D document (3 parcel labels, 3 price labels, 2 area labels) the plot
at index 2 has no area, all three plots have prices, and all three have
confidence `0.9`. -/
theorem C6_positional :
    (∀ text pdf_id : Str, ∀ i : Nat, i < (elecParcelIds text).length →
      (extract_electronic text pdf_id).plots[i]? =
        some { parcel_id := (elecParcelIds text).getD i []
               area_m2 := (elecAreas text).getD i none
               price_eur := (elecPrices text).getD i none
               share := (elecShares text).getD i (str "1/1")
               confidence := 0.9 })
    ∧ (extract_electronic t6text t6pdf).plots.map (fun p => p.area_m2)
        = [some 5000, some 4000, none]
    ∧ (extract_electronic t6text t6pdf).plots.map (fun p => p.price_eur.isSome)
        = [true, true, true]
    ∧ (extract_electronic t6text t6pdf).plots.map (fun p => p.confidence)
        = [0.9, 0.9, 0.9] := by
  refine ⟨?_, by decide, by decide, rfl⟩
  intro text pdf_id i h
  rw [extract_electronic_plots, List.getElem?_map, List.getElem?_range h]
  rfl

set_option maxRecDepth 100000 in
/-- C6 witness: the pairing theorem applied at index 2 of the Scenario D
document. -/
theorem C6_positional_witness :
    2 < (elecParcelIds t6text).length
    ∧ (extract_electronic t6text t6pdf).plots[2]? =
        some { parcel_id := (elecParcelIds t6text).getD 2 []
               area_m2 := (elecAreas t6text).getD 2 none
               price_eur := (elecPrices t6text).getD 2 none
               share := (elecShares t6text).getD 2 (str "1/1")
               confidence := 0.9 } :=
  ⟨by decide, C6_positional.1 t6text t6pdf 2 (by decide)⟩

/-! ## Claims C1 and C10: confidence bounds -/

theorem simpleGo_conf : ∀ (ids seen : List Str), ∀ p ∈ simpleGo ids seen,
    p.confidence = 0.4 := by
  intro ids
  induction ids with
  | nil => intro seen p hp; simp [simpleGo] at hp
  | cons a as ih =>
    intro seen p hp
    unfold simpleGo at hp
    split at hp
    · rcases List.mem_cons.mp hp with h | h
      · rw [h]
      · exact ih _ p h
    · exact ih _ p hp

theorem electronic_conf (text pid : Str) :
    ∀ p ∈ (extract_electronic text pid).plots, p.confidence = 0.9 := by
  intro p hp
  rw [extract_electronic_plots] at hp
  obtain ⟨i, _, rfl⟩ := List.mem_map.mp hp
  rfl

theorem table_conf (text pid : Str) :
    ∀ p ∈ (extract_table text pid).plots, p.confidence = 0.6 ∨ p.confidence = 0.4 := by
  intro p hp
  simp only [extract_table, extract_parcels_simple] at hp
  split at hp
  · rcases List.mem_append.mp hp with h | h
    · obtain ⟨m, _, rfl⟩ := List.mem_map.mp h
      left; rfl
    · right; exact simpleGo_conf _ _ p h
  · obtain ⟨m, _, rfl⟩ := List.mem_map.mp hp
    left; rfl

theorem skzg_conf (text pid : Str) :
    ∀ p ∈ (extract_skzg text pid).plots, p.confidence = 0.7 := by
  intro p hp
  simp only [extract_skzg] at hp
  obtain ⟨m, _, rfl⟩ := List.mem_map.mp hp
  rfl

theorem generic_conf (text pid : Str) :
    ∀ p ∈ (extract_generic text pid).plots, p.confidence = 0.4 := by
  intro p hp
  simp only [extract_generic, extract_parcels_simple] at hp
  rcases List.mem_append.mp hp with h | h
  · simp at h
  · exact simpleGo_conf _ _ p h

theorem conf_sum_bounds (l : List PlotExtraction)
    (h : ∀ p ∈ l, 0 ≤ p.confidence ∧ p.confidence ≤ 0.9) :
    0 ≤ (l.map (fun p => p.confidence)).sum
    ∧ (l.map (fun p => p.confidence)).sum ≤ 0.9 * l.length := by
  induction l with
  | nil => simp
  | cons p ps ih =>
    obtain ⟨h0, h9⟩ := h p (List.mem_cons_self p ps)
    obtain ⟨ih0, ih9⟩ := ih (fun q hq => h q (List.mem_cons_of_mem p hq))
    simp only [List.map_cons, List.sum_cons, List.length_cons]
    constructor
    · exact add_nonneg h0 ih0
    · push_cast
      linarith

theorem calc_conf_bounds (r : DocumentExtraction)
    (h : ∀ p ∈ r.plots, 0 ≤ p.confidence ∧ p.confidence ≤ 0.9) :
    0 ≤ calculate_confidence r ∧ calculate_confidence r ≤ 0.95 := by
  unfold calculate_confidence
  rcases eq_or_ne r.plots [] with he | he
  · rw [if_pos he]
    norm_num
  · rw [if_neg he]
    have hnpos : (0 : ℚ) < r.plots.length := by
      have : 0 < r.plots.length := List.length_pos.mpr he
      exact_mod_cast this
    obtain ⟨hs0, hs9⟩ := conf_sum_bounds r.plots h
    have havg0 : 0 ≤ (r.plots.map fun p => p.confidence).sum / (r.plots.length : ℚ) :=
      div_nonneg hs0 hnpos.le
    have havg9 : (r.plots.map fun p => p.confidence).sum / (r.plots.length : ℚ) ≤ 0.9 := by
      rw [div_le_iff₀ hnpos]
      exact hs9
    have hc : 0 ≤ ((if r.plots.any (fun p => truthyN p.area_m2) then (0.4 : ℚ) else 0)
          + (if truthyQ r.total_price then (0.3 : ℚ) else 0)
          + (if r.buyer_known then (0.2 : ℚ) else 0)
          + (if 2 ≤ r.plots.length then (0.1 : ℚ) else 0))
        ∧ ((if r.plots.any (fun p => truthyN p.area_m2) then (0.4 : ℚ) else 0)
          + (if truthyQ r.total_price then (0.3 : ℚ) else 0)
          + (if r.buyer_known then (0.2 : ℚ) else 0)
          + (if 2 ≤ r.plots.length then (0.1 : ℚ) else 0)) ≤ 1 := by
      constructor <;> split_ifs <;> norm_num
    constructor
    · exact le_min (by linarith [hc.1]) (by norm_num)
    · calc min (((r.plots.map fun p => p.confidence).sum / (r.plots.length : ℚ)
            + ((if r.plots.any (fun p => truthyN p.area_m2) then (0.4 : ℚ) else 0)
              + (if truthyQ r.total_price then (0.3 : ℚ) else 0)
              + (if r.buyer_known then (0.2 : ℚ) else 0)
              + (if 2 ≤ r.plots.length then (0.1 : ℚ) else 0))) / 2) 1
          ≤ ((r.plots.map fun p => p.confidence).sum / (r.plots.length : ℚ)
            + ((if r.plots.any (fun p => truthyN p.area_m2) then (0.4 : ℚ) else 0)
              + (if truthyQ r.total_price then (0.3 : ℚ) else 0)
              + (if r.buyer_known then (0.2 : ℚ) else 0)
              + (if 2 ≤ r.plots.length then (0.1 : ℚ) else 0))) / 2 := min_le_left _ _
        _ ≤ 0.95 := by linarith [hc.2]

theorem strategies_conf (text pid : Str) :
    ∀ p ∈ (if detect_template text = str "electronic_form" then extract_electronic text pid
           else if detect_template text = str "table_format" then extract_table text pid
           else if detect_template text = str "skzg" then extract_skzg text pid
           else extract_generic text pid).plots,
      0 ≤ p.confidence ∧ p.confidence ≤ 0.9 := by
  split_ifs with h1 h2 h3
  · intro p hp
    rw [electronic_conf text pid p hp]
    norm_num
  · intro p hp
    rcases table_conf text pid p hp with h | h <;> rw [h] <;> norm_num
  · intro p hp
    rw [skzg_conf text pid p hp]
    norm_num
  · intro p hp
    rw [generic_conf text pid p hp]
    norm_num

/-- C1: for every input text and document id, `extract_from_ocr_text` (a
total function in this embedding) returns a result whose
`confidence_score` lies in `[0, 1]`. -/
theorem C1_extract_bounds (text pdf_id : Str) :
    0 ≤ (extract_from_ocr_text text pdf_id).confidence_score
    ∧ (extract_from_ocr_text text pdf_id).confidence_score ≤ 1 := by
  have h := strategies_conf text pdf_id
  have hb := calc_conf_bounds
    { (if detect_template text = str "electronic_form" then extract_electronic text pdf_id
       else if detect_template text = str "table_format" then extract_table text pdf_id
       else if detect_template text = str "skzg" then extract_skzg text pdf_id
       else extract_generic text pdf_id) with template_type := detect_template text }
    (by simpa using h)
  simp only [extract_from_ocr_text]
  exact ⟨hb.1, hb.2.trans (by norm_num)⟩

/-- C10: the returned `confidence_score` never exceeds `0.95`: with no plots
it is `0.1`, and otherwise the mean plot confidence is at most `0.9` (the
largest per-strategy constant) while completeness is at most `1`, so the
`min (· , 1)` cap is never attained. -/
theorem C10_score_bound (text pdf_id : Str) :
    (extract_from_ocr_text text pdf_id).confidence_score ≤ 0.95 := by
  have h := strategies_conf text pdf_id
  have hb := calc_conf_bounds
    { (if detect_template text = str "electronic_form" then extract_electronic text pdf_id
       else if detect_template text = str "table_format" then extract_table text pdf_id
       else if detect_template text = str "skzg" then extract_skzg text pdf_id
       else extract_generic text pdf_id) with template_type := detect_template text }
    (by simpa using h)
  simp only [extract_from_ocr_text]
  exact hb.2

/-! ## Claim C9: structural facts about the parcel scanner -/

theorem parcelHere_spec {pv : Option Char} {u b e : Str}
    (h : parcelHere pv u = some (b, e)) :
    b = u.takeWhile Char.isDigit ∧ 1 ≤ b.length ∧ b.length ≤ 4
    ∧ (∀ c ∈ b, Char.isDigit c) ∧ ∃ rest, u = b ++ '/' :: rest := by
  unfold parcelHere at h
  split at h
  · simp at h
  · split at h
    · split at h
      · split at h
        · split at h
          · simp only [Option.some.injEq, Prod.mk.injEq] at h
            obtain ⟨rfl, rfl⟩ := h
            have hb4 : 1 ≤ (u.takeWhile Char.isDigit).length
                ∧ (u.takeWhile Char.isDigit).length ≤ 4 := by assumption
            obtain ⟨r0, heq⟩ : ∃ r, u.dropWhile Char.isDigit = '/' :: r := ⟨_, by assumption⟩
            refine ⟨rfl, hb4.1, hb4.2, fun c hc => List.mem_takeWhile_imp hc, ⟨r0, ?_⟩⟩
            conv_lhs => rw [← List.takeWhile_append_dropWhile Char.isDigit u, heq]
          · split at h
            · simp at h
            · simp only [Option.some.injEq, Prod.mk.injEq] at h
              obtain ⟨rfl, rfl⟩ := h
              have hb4 : 1 ≤ (u.takeWhile Char.isDigit).length
                  ∧ (u.takeWhile Char.isDigit).length ≤ 4 := by assumption
              obtain ⟨r0, heq⟩ : ∃ r, u.dropWhile Char.isDigit = '/' :: r := ⟨_, by assumption⟩
              refine ⟨rfl, hb4.1, hb4.2, fun c hc => List.mem_takeWhile_imp hc, ⟨r0, ?_⟩⟩
              conv_lhs => rw [← List.takeWhile_append_dropWhile Char.isDigit u, heq]
        · simp at h
      · simp at h
    · simp at h

theorem mem_parcelScanGo :
    ∀ (s : Str) (prev : Option Char) (skip pos : Nat) (m : PMatch),
      m ∈ parcelScanGo s prev skip pos →
      ∃ k pv, m.pos = pos + k ∧ parcelHere pv (s.drop k) = some (m.block, m.sub) := by
  intro s
  induction s with
  | nil =>
    intro prev skip pos m hm
    simp [parcelScanGo] at hm
  | cons c rest ih =>
    intro prev skip pos m hm
    cases skip with
    | succ sk =>
      rw [parcelScanGo] at hm
      obtain ⟨k, pv, hk, hp⟩ := ih _ _ _ _ hm
      exact ⟨k + 1, pv, by omega, hp⟩
    | zero =>
      rw [parcelScanGo] at hm
      cases hph : parcelHere prev (c :: rest) with
      | some be =>
        obtain ⟨b, e⟩ := be
        rw [hph] at hm
        rcases List.mem_cons.mp hm with h | h
        · subst h
          exact ⟨0, prev, by simp, hph⟩
        · obtain ⟨k, pv, hk, hp⟩ := ih _ _ _ _ h
          exact ⟨k + 1, pv, by omega, hp⟩
      | none =>
        rw [hph] at hm
        obtain ⟨k, pv, hk, hp⟩ := ih _ _ _ _ hm
        exact ⟨k + 1, pv, by omega, hp⟩

theorem mem_parcelMatches {t : Str} {m : PMatch} (hm : m ∈ parcelMatches t) :
    ∃ pv, parcelHere pv (t.drop m.pos) = some (m.block, m.sub) := by
  obtain ⟨k, pv, hk, hp⟩ := mem_parcelScanGo t none 0 0 m hm
  have : m.pos = k := by omega
  rw [this]
  exact ⟨pv, hp⟩

theorem takeWhile_all_append {p : Char → Bool} (l : Str) (c : Char) (r : Str)
    (hl : ∀ x ∈ l, p x) (hc : p c = false) :
    (l ++ c :: r).takeWhile p = l := by
  induction l with
  | nil => simp [List.takeWhile_cons, hc]
  | cons a as ih =>
    have ha := hl a (List.mem_cons_self a as)
    simp [List.takeWhile_cons, ha, ih (fun x hx => hl x (List.mem_cons_of_mem a hx))]

theorem searchSkzg_head (b r : Str) (hall : ∀ c ∈ b, Char.isDigit c)
    (h2 : 2 ≤ b.length) (h6 : b.length ≤ 6) :
    searchSkzgNum none (b ++ '/' :: r) = some (natOfDigits b) := by
  obtain ⟨c0, b', rfl⟩ : ∃ c0 b', b = c0 :: b' := by
    cases b with
    | nil => simp at h2
    | cons x xs => exact ⟨x, xs, rfl⟩
  have htw : ((c0 :: b') ++ '/' :: r).takeWhile Char.isDigit = c0 :: b' :=
    takeWhile_all_append _ _ _ hall (by decide)
  have hmatch : skzgNumHere none ((c0 :: b') ++ '/' :: r) = some (natOfDigits (c0 :: b')) := by
    unfold skzgNumHere
    rw [htw]
    rw [if_neg (by simp [prevIsWord]), if_pos h2, List.take_of_length_le h6]
  rw [List.cons_append, searchSkzgNum]
  rw [← List.cons_append, hmatch]

/-- C9: in the SKZG strategy the area search starts at the parcel-id match
itself (the 50 preceding context characters are never searched) and needs no
boundary after its 2-6 digits, so for every parcel whose id block has at
least two digits the first area candidate is the block number itself:
`area_m2` is that value when it passes the range/year validation and absent
otherwise. -/
theorem C9_skzg_block_area :
    ∀ (text pid : Str) (m : PMatch), m ∈ parcelMatches text → 2 ≤ m.block.length →
      ((skzgPlot text m).area_m2 =
        if (1 ≤ natOfDigits m.block ∧ natOfDigits m.block ≤ 999999)
            ∧ ¬(1900 ≤ natOfDigits m.block ∧ natOfDigits m.block ≤ 2100) then
          some (natOfDigits m.block)
        else none)
      ∧ skzgPlot text m ∈ (extract_skzg text pid).plots := by
  intro text pid m hm h2
  constructor
  · obtain ⟨pv, hph⟩ := mem_parcelMatches hm
    obtain ⟨hbtw, hb1, hb4, hball, rest, hu⟩ := parcelHere_spec hph
    have hplen : m.pos < text.length := by
      by_contra hh
      push_neg at hh
      rw [List.drop_eq_nil_of_le hh] at hu
      have hlen0 := congrArg List.length hu
      simp at hlen0
      omega
    have hdroplen : (text.drop m.pos).length = text.length - m.pos :=
      List.length_drop _ _
    have hstruct : (text.drop m.pos).length = m.block.length + 1 + rest.length := by
      rw [hu]
      simp
      omega
    have hsearched :
        (((text.drop (m.pos - 50)).take
            (min text.length (m.pos + m.grp.length + 100) - (m.pos - 50))).drop
          (m.pos - (m.pos - 50)))
        = (text.drop m.pos).take
            (min text.length (m.pos + m.grp.length + 100) - m.pos) := by
      rw [List.drop_take, List.drop_drop]
      have e1 : m.pos - 50 + (m.pos - (m.pos - 50)) = m.pos := by omega
      rw [e1]
      congr 1
      omega
    have hgrp : m.grp.length = m.block.length + 1 + m.sub.length := by
      simp [PMatch.grp]
      omega
    have hn1 : m.block.length + 1
        ≤ min text.length (m.pos + m.grp.length + 100) - m.pos := by
      omega
    have htake : (text.drop m.pos).take
          (min text.length (m.pos + m.grp.length + 100) - m.pos)
        = m.block ++ '/' :: rest.take
            (min text.length (m.pos + m.grp.length + 100) - m.pos
              - m.block.length - 1) := by
      rw [hu, List.take_append_eq_append_take, List.take_of_length_le (by omega)]
      congr 1
      obtain ⟨k, hk⟩ : ∃ k, min text.length (m.pos + m.grp.length + 100) - m.pos
          - m.block.length = k + 1 :=
        ⟨min text.length (m.pos + m.grp.length + 100) - m.pos - m.block.length - 1,
          by omega⟩
      rw [hk, List.take_succ_cons, Nat.add_sub_cancel]
    have hsearch : searchSkzgNum none ((text.drop m.pos).take
          (min text.length (m.pos + m.grp.length + 100) - m.pos))
        = some (natOfDigits m.block) := by
      rw [htake]
      exact searchSkzg_head _ _ hball h2 (by omega)
    simp only [skzgPlot]
    rw [hsearched, hsearch]
    simp only [validArea_skzg]
  · simp only [extract_skzg]
    exact List.mem_map_of_mem (skzgPlot text) hm

/-- C9 witness: the theorem applied to the single match of `"123/45"`. -/
theorem C9_skzg_block_area_witness :
    (⟨0, str "123", str "45"⟩ : PMatch) ∈ parcelMatches (str "123/45")
    ∧ 2 ≤ (str "123").length
    ∧ (skzgPlot (str "123/45") ⟨0, str "123", str "45"⟩).area_m2 = some 123 := by
  refine ⟨by decide, by decide, ?_⟩
  have h := (C9_skzg_block_area (str "123/45") (str "w9") ⟨0, str "123", str "45"⟩
    (by decide) (by decide)).1
  rw [h]
  decide
